/-
  Verification of lib/Transforms/Utils/LibCallsShrinkWrap.cpp.

  The pass shrink-wraps calls to numeric library functions whose result is
  unused: it synthesizes a boolean predicate over the call's arguments that
  is true only when the call could set errno, and moves the call under a
  conditional branch on that predicate.

  Shallow embedding notes.
  * Floating-point values appear in this pass only as operands of IEEE
    *ordered* comparisons against constants that are exactly representable
    (small integers, 0, ±1, ±∞).  We model a floating value as `FPVal`:
    NaN, ±∞, IEEE −0.0, or a finite rational.  Ordered comparisons are
    false whenever an operand is NaN, and −0.0 compares equal to +0.0.
  * `createCond`/`createOrCond` widen their `float` immediates to the
    argument's type with fpext; fpext is value-preserving, and every
    immediate used by the pass is exactly representable in `float`, so in
    the model the widening is the identity and constants are embedded
    directly as `FPVal`s.
  * The pass builds predicate *expressions* (IR values); we embed them as
    the syntax tree `Cond` whose leaves compare the call's first operand
    (`argCmp`) or second operand (`expCmp`, used by the pow case) against
    a constant, evaluated by `evalCond`.
  * Each `performCall…` routine returns `false`, or wraps the call via
    `shrinkWrapCI` and returns `true`; `llvm_unreachable` and failed
    `assert`s abort.  We functionalize this as `PerformResult`:
    `notChanged`, `wrapped w` (where `w` records the data `shrinkWrapCI`
    attaches: the condition and the branch weights), or `fatal`.
-/
import Mathlib

namespace LibCallsShrinkWrap

/-- A floating-point datum as this pass observes it: NaN, an infinity,
IEEE negative zero, or a finite value (`finite 0` is +0.0). -/
inductive FPVal where
  | nan : FPVal
  | posInf : FPVal
  | negInf : FPVal
  | negZero : FPVal
  | finite : ℚ → FPVal
  deriving DecidableEq, Repr

/-- The fcmp predicates used by the pass (all *ordered*). -/
inductive FCmp where
  | oeq : FCmp
  | olt : FCmp
  | ole : FCmp
  | ogt : FCmp
  | oge : FCmp
  deriving DecidableEq, Repr

def FPVal.isNaN : FPVal → Bool
  | .nan => true
  | _ => false

/-- Strict order on non-NaN values (rows with NaN are unreachable through
`fcmp`, which tests `isNaN` first); −0.0 is identified with 0. -/
def fpLt : FPVal → FPVal → Bool
  | .nan, _ => false
  | _, .nan => false
  | .negInf, .negInf => false
  | .negInf, _ => true
  | _, .negInf => false
  | .posInf, _ => false
  | _, .posInf => true
  | .finite a, .finite b => decide (a < b)
  | .finite a, .negZero => decide (a < 0)
  | .negZero, .finite b => decide (0 < b)
  | .negZero, .negZero => false

/-- IEEE equality on non-NaN values; −0.0 equals +0.0. -/
def fpEq : FPVal → FPVal → Bool
  | .nan, _ => false
  | _, .nan => false
  | .negInf, .negInf => true
  | .posInf, .posInf => true
  | .negZero, .negZero => true
  | .negZero, .finite b => decide (b = 0)
  | .finite a, .negZero => decide (a = 0)
  | .finite a, .finite b => decide (a = b)
  | _, _ => false

/-- IEEE ordered comparison: false when either operand is NaN. -/
def fcmp (c : FCmp) (a b : FPVal) : Bool :=
  if a.isNaN || b.isNaN then false
  else
    match c with
    | .oeq => fpEq a b
    | .olt => fpLt a b
    | .ole => fpLt a b || fpEq a b
    | .ogt => fpLt b a
    | .oge => fpLt b a || fpEq b a

/-- The recognized library functions this pass can meet (`LibFunc::Func`).
`tan`/`tanf`/`tanl` stand for the recognized identities that belong to no
error category of the pass. -/
inductive Func where
  | acos | acosf | acosl | asin | asinf | asinl
  | cos | cosf | cosl | sin | sinf | sinl
  | acosh | acoshf | acoshl
  | sqrt | sqrtf | sqrtl
  | cosh | coshf | coshl
  | exp | expf | expl
  | exp10 | exp10f | exp10l
  | exp2 | exp2f | exp2l
  | sinh | sinhf | sinhl
  | expm1 | expm1f | expm1l
  | atanh | atanhf | atanhl
  | log | logf | logl
  | log10 | log10f | log10l
  | log2 | log2f | log2l
  | logb | logbf | logbl
  | log1p | log1pf | log1pl
  | pow | powf | powl
  | tan | tanf | tanl
  deriving DecidableEq, Repr

/-- A synthesized condition: a comparison of the call's first operand
(`argCmp`) or second operand (`expCmp`) against a constant, or an OR. -/
inductive Cond where
  | argCmp : FCmp → FPVal → Cond
  | expCmp : FCmp → FPVal → Cond
  | orC : Cond → Cond → Cond
  deriving DecidableEq, Repr

/-- Evaluate a condition at concrete operand values: `x` is the call's
first argument, `y` its second (the pow exponent). -/
def evalCond (x y : FPVal) : Cond → Bool
  | .argCmp c v => fcmp c x v
  | .expCmp c v => fcmp c y v
  | .orC a b => evalCond x y a || evalCond x y b

/-- `createCond`: compare the first argument against a constant (the
fpext of the immediate to the argument's type is value-preserving). -/
def createCond (c : FCmp) (v : FPVal) : Cond := .argCmp c v

/-- `createOrCond`: OR of two comparisons of the first argument. -/
def createOrCond (c1 : FCmp) (v1 : FPVal) (c2 : FCmp) (v2 : FPVal) : Cond :=
  .orC (.argCmp c1 v1) (.argCmp c2 v2)

/-- What `shrinkWrapCI` attaches to a rewritten call: the guarding
condition, the branch weight on the taken-when-true (guarded call) edge,
the weight on the false (skip) edge, and the block names. -/
structure WrapInfo where
  cond : Cond
  trueWeight : ℕ
  falseWeight : ℕ
  callBlockName : String
  endBlockName : String
  deriving DecidableEq, Repr

/-- `shrinkWrapCI`: split on `cond` with branch weights 1 (guarded call
path, condition true) : 2000 (skip path). -/
def shrinkWrapCI (c : Cond) : WrapInfo :=
  { cond := c
    trueWeight := 1
    falseWeight := 2000
    callBlockName := "cdce.call"
    endBlockName := "cdce.end" }

/-- Outcome of one `performCall…` routine: `return false`, or
`shrinkWrapCI` applied followed by `return true`, or an aborted
`llvm_unreachable`/`assert`. -/
inductive PerformResult where
  | notChanged : PerformResult
  | wrapped : WrapInfo → PerformResult
  | fatal : PerformResult
  deriving DecidableEq, Repr

/-- Wrap a non-null condition. -/
def wrap (c : Cond) : PerformResult := .wrapped (shrinkWrapCI c)

/-- Pass an `Option Cond` to `shrinkWrapCI`, whose assert aborts on a
null condition. -/
def wrapOpt : Option Cond → PerformResult
  | some c => wrap c
  | none => .fatal

/-- `performCallDomainErrorOnly`: the domain-error table. -/
def performCallDomainErrorOnly (f : Func) : PerformResult :=
  match f with
  | .acos | .acosf | .acosl | .asin | .asinf | .asinl =>
      wrap (createOrCond .olt (.finite (-1)) .ogt (.finite 1))
  | .cos | .cosf | .cosl | .sin | .sinf | .sinl =>
      wrap (createOrCond .oeq .posInf .oeq .negInf)
  | .acosh | .acoshf | .acoshl =>
      wrap (createCond .olt (.finite 1))
  | .sqrt | .sqrtf | .sqrtl =>
      wrap (createCond .olt (.finite 0))
  | _ => .notChanged

/-- `generateOneRangeCond`: upper-bound range condition; `none` is the
`llvm_unreachable` default branch. -/
def generateOneRangeCond (f : Func) : Option Cond :=
  match f with
  | .expm1 => some (createCond .ogt (.finite 709))
  | .expm1f => some (createCond .ogt (.finite 88))
  | .expm1l => some (createCond .ogt (.finite 11356))
  | _ => none

/-- `generateTwoRangeCond`: two-sided range condition, built as
`(arg > UpperBound) OR (arg < LowerBound)`; `none` is the
`llvm_unreachable` default branch. -/
def generateTwoRangeCond (f : Func) : Option Cond :=
  match f with
  | .cosh | .sinh =>
      some (createOrCond .ogt (.finite 710) .olt (.finite (-710)))
  | .coshf | .sinhf =>
      some (createOrCond .ogt (.finite 89) .olt (.finite (-89)))
  | .coshl | .sinhl =>
      some (createOrCond .ogt (.finite 11357) .olt (.finite (-11357)))
  | .exp =>
      some (createOrCond .ogt (.finite 709) .olt (.finite (-745)))
  | .expf =>
      some (createOrCond .ogt (.finite 88) .olt (.finite (-103)))
  | .expl =>
      some (createOrCond .ogt (.finite 11356) .olt (.finite (-11399)))
  | .exp10 =>
      some (createOrCond .ogt (.finite 308) .olt (.finite (-323)))
  | .exp10f =>
      some (createOrCond .ogt (.finite 38) .olt (.finite (-45)))
  | .exp10l =>
      some (createOrCond .ogt (.finite 4932) .olt (.finite (-4950)))
  | .exp2 =>
      some (createOrCond .ogt (.finite 1023) .olt (.finite (-1074)))
  | .exp2f =>
      some (createOrCond .ogt (.finite 127) .olt (.finite (-149)))
  | .exp2l =>
      some (createOrCond .ogt (.finite 11383) .olt (.finite (-16445)))
  | _ => none

/-- `performCallRangeErrorOnly`: the range-error dispatch. -/
def performCallRangeErrorOnly (f : Func) : PerformResult :=
  match f with
  | .cosh | .coshf | .coshl
  | .exp | .expf | .expl
  | .exp10 | .exp10f | .exp10l
  | .exp2 | .exp2f | .exp2l
  | .sinh | .sinhf | .sinhl =>
      wrapOpt (generateTwoRangeCond f)
  | .expm1 | .expm1f | .expm1l =>
      wrapOpt (generateOneRangeCond f)
  | _ => .notChanged

/-- Provenance of the pow base operand, as the source inspects it:
a `ConstantFP` (with its exact double value), an int-to-float conversion
instruction (with the source integer bit width), some other instruction,
or a non-instruction, non-constant value. -/
inductive BaseKind where
  | constFP : ℚ → BaseKind
  | intToFP : ℕ → BaseKind
  | otherInst : BaseKind
  | nonInst : BaseKind
  deriving DecidableEq, Repr

/-- `(base ≤ 0) OR (exponent > u)`, the pow integer-provenance shape. -/
def powIntCond (u : ℚ) : Cond :=
  .orC (.argCmp .ole (.finite 0)) (.expCmp .ogt (.finite u))

/-- `generateCondForPow`: only double-precision `pow` is handled; a
constant base must lie in [1, 255] and yields `exponent > 127`; a base
widened from an 8/16/32-bit integer yields
`(base ≤ 0) OR (exponent > 128/64/32)`; everything else declines. -/
def generateCondForPow (f : Func) (base : BaseKind) : Option Cond :=
  if f ≠ Func.pow then none
  else
    match base with
    | .constFP d =>
        if d < 1 ∨ 255 < d then none
        else some (.expCmp .ogt (.finite 127))
    | .intToFP bw =>
        if bw = 8 then some (powIntCond 128)
        else if bw = 16 then some (powIntCond 64)
        else if bw = 32 then some (powIntCond 32)
        else none
    | .otherInst => none
    | .nonInst => none

/-- The three command-line toggles (all default `true`). -/
structure Config where
  doDomainError : Bool
  doRangeError : Bool
  doPoleError : Bool
  deriving DecidableEq, Repr

/-- The default configuration: every toggle enabled. -/
def cfgDefault : Config := ⟨true, true, true⟩

/-- `performCallErrors`: combined domain/pole(/range) dispatch.  The
`assert(Cond)` before `shrinkWrapCI` cannot fire: every case either
builds its condition directly or returns false on a null pow condition. -/
def performCallErrors (cfg : Config) (f : Func) (base : BaseKind) :
    PerformResult :=
  match f with
  | .atanh | .atanhf | .atanhl =>
      if !cfg.doDomainError || !cfg.doPoleError then .notChanged
      else wrap (createOrCond .ole (.finite (-1)) .oge (.finite 1))
  | .log | .logf | .logl
  | .log10 | .log10f | .log10l
  | .log2 | .log2f | .log2l
  | .logb | .logbf | .logbl =>
      if !cfg.doDomainError || !cfg.doPoleError then .notChanged
      else wrap (createCond .ole (.finite 0))
  | .log1p | .log1pf | .log1pl =>
      if !cfg.doDomainError || !cfg.doPoleError then .notChanged
      else wrap (createCond .ole (.finite (-1)))
  | .pow | .powf | .powl =>
      if !cfg.doDomainError || !cfg.doPoleError || !cfg.doRangeError then
        .notChanged
      else
        match generateCondForPow f base with
        | none => .notChanged
        | some c => wrap c
  | _ => .notChanged

/-- `perform(CallInst*)`: try domain-only (if enabled), then range-only
(if enabled), then the combined categories. -/
def perform (cfg : Config) (f : Func) (base : BaseKind) : PerformResult :=
  match (if cfg.doDomainError then performCallDomainErrorOnly f
         else .notChanged) with
  | .wrapped w => .wrapped w
  | .fatal => .fatal
  | .notChanged =>
    match (if cfg.doRangeError then performCallRangeErrorOnly f
           else .notChanged) with
    | .wrapped w => .wrapped w
    | .fatal => .fatal
    | .notChanged => performCallErrors cfg f base

/-- The first-argument precision classes the pass distinguishes. -/
inductive FPType where
  | flt | dbl | fp80 | otherTy
  deriving DecidableEq, Repr

/-- A call instruction as `checkCandidate`/`perform` observe it:
the no-builtin marker, whether the result is unused, the callee
(`none` = indirect/absent callee, `some none` = direct but not a
recognized library function), the first argument's type, and the pow
base provenance of the first operand. -/
structure CallSite where
  isNoBuiltin : Bool
  useEmpty : Bool
  callee : Option (Option Func)
  argType : FPType
  base : BaseKind
  deriving DecidableEq, Repr

/-- `checkCandidate`: true iff the call is appended to the work list. -/
def checkCandidate (tliHas : Func → Bool) (c : CallSite) : Bool :=
  if c.isNoBuiltin then false
  else if !c.useEmpty then false
  else
    match c.callee with
    | none => false
    | some none => false
    | some (some f) =>
        if !tliHas f then false
        else
          match c.argType with
          | .flt | .dbl | .fp80 => true
          | .otherTy => false

/-- The visitor: the work list, in scan order. -/
def buildWorkList (tliHas : Func → Bool) (calls : List CallSite) :
    List CallSite :=
  calls.filter (fun c => checkCandidate tliHas c)

/-- `perform` on a work-list entry; the `assert`s on a null or
unrecognized callee abort. -/
def performCall (cfg : Config) (c : CallSite) : PerformResult :=
  match c.callee with
  | some (some f) => perform cfg f c.base
  | _ => .fatal

/-- The `perform()` loop: process work-list entries in order, recording
whether any call was wrapped and the wrap data applied, in order;
`none` models an aborted assert. -/
def performLoop (cfg : Config) : List CallSite → Option (Bool × List WrapInfo)
  | [] => some (false, [])
  | c :: rest =>
    match performCall cfg c with
    | .fatal => none
    | .wrapped w => (performLoop cfg rest).map (fun r => (true, w :: r.2))
    | .notChanged => performLoop cfg rest

/-- `runImpl`: skip functions optimized for size, otherwise scan and
process; returns the changed flag and the transcript of applied wraps. -/
def runImpl (cfg : Config) (tliHas : Func → Bool) (optForSize : Bool)
    (calls : List CallSite) : Option (Bool × List WrapInfo) :=
  if optForSize then some (false, [])
  else performLoop cfg (buildWorkList tliHas calls)

/-- Evaluate the condition of a wrapped result at concrete operands
(`none` when no wrap happened). -/
def wrappedEval (r : PerformResult) (x y : FPVal) : Option Bool :=
  match r with
  | .wrapped w => some (evalCond x y w.cond)
  | _ => none

/-! ### Spec-table predicates

These follow the wording of the specification's bound tables (§4.2), to
be compared with the conditions the embedded code synthesizes. -/

/-- Spec table: inverse sine/cosine domain error,
`argument < −1 OR argument > 1` (ordered). -/
def spec_invSinCos_domain (x : FPVal) : Bool :=
  fcmp .olt x (.finite (-1)) || fcmp .ogt x (.finite 1)

/-- Spec table: sine/cosine domain error,
`argument == +∞ OR argument == −∞` (ordered). -/
def spec_sinCos_domain (x : FPVal) : Bool :=
  fcmp .oeq x .posInf || fcmp .oeq x .negInf

/-- Spec table: inverse hyperbolic cosine domain error, `argument < 1`. -/
def spec_acosh_domain (x : FPVal) : Bool :=
  fcmp .olt x (.finite 1)

/-- Spec table: square-root domain error, `argument < 0`. -/
def spec_sqrt_domain (x : FPVal) : Bool :=
  fcmp .olt x (.finite 0)

/-- Spec table: two-sided range error,
`argument < LowerBound OR argument > UpperBound`. -/
def spec_twoRange (lo hi : ℚ) (x : FPVal) : Bool :=
  fcmp .olt x (.finite lo) || fcmp .ogt x (.finite hi)

/-- Spec table: one-sided range error, `argument > UpperBound`. -/
def spec_oneRange (hi : ℚ) (x : FPVal) : Bool :=
  fcmp .ogt x (.finite hi)

/-- Spec table: inverse hyperbolic tangent combined error,
`argument ≤ −1 OR argument ≥ 1`. -/
def spec_atanh_combined (x : FPVal) : Bool :=
  fcmp .ole x (.finite (-1)) || fcmp .oge x (.finite 1)

/-- Spec table: logarithm-family combined error, `argument ≤ 0`. -/
def spec_log_combined (x : FPVal) : Bool :=
  fcmp .ole x (.finite 0)

/-- Spec table: log(1+x) combined error, `argument ≤ −1`. -/
def spec_log1p_combined (x : FPVal) : Bool :=
  fcmp .ole x (.finite (-1))

/-! ### C1: the domain-error predicates match the spec table -/

/-- **C1.** For every candidate in a domain-error family, the synthesized
predicate matches the spec table: for asin/acos (and f/l variants) it is
`arg < −1 OR arg > 1`; for sin/cos it is `arg == +∞ OR arg == −∞`; for
acosh it is `arg < 1`; for sqrt it is `arg < 0` — all as IEEE ordered
comparisons; in particular the sqrt predicate is false at −0.0 and true
at −1e-10. -/
theorem domain_error_predicates_match_spec_table (x y : FPVal) :
    (wrappedEval (performCallDomainErrorOnly .acos) x y
        = some (spec_invSinCos_domain x)) ∧
    (wrappedEval (performCallDomainErrorOnly .acosf) x y
        = some (spec_invSinCos_domain x)) ∧
    (wrappedEval (performCallDomainErrorOnly .acosl) x y
        = some (spec_invSinCos_domain x)) ∧
    (wrappedEval (performCallDomainErrorOnly .asin) x y
        = some (spec_invSinCos_domain x)) ∧
    (wrappedEval (performCallDomainErrorOnly .asinf) x y
        = some (spec_invSinCos_domain x)) ∧
    (wrappedEval (performCallDomainErrorOnly .asinl) x y
        = some (spec_invSinCos_domain x)) ∧
    (wrappedEval (performCallDomainErrorOnly .cos) x y
        = some (spec_sinCos_domain x)) ∧
    (wrappedEval (performCallDomainErrorOnly .cosf) x y
        = some (spec_sinCos_domain x)) ∧
    (wrappedEval (performCallDomainErrorOnly .cosl) x y
        = some (spec_sinCos_domain x)) ∧
    (wrappedEval (performCallDomainErrorOnly .sin) x y
        = some (spec_sinCos_domain x)) ∧
    (wrappedEval (performCallDomainErrorOnly .sinf) x y
        = some (spec_sinCos_domain x)) ∧
    (wrappedEval (performCallDomainErrorOnly .sinl) x y
        = some (spec_sinCos_domain x)) ∧
    (wrappedEval (performCallDomainErrorOnly .acosh) x y
        = some (spec_acosh_domain x)) ∧
    (wrappedEval (performCallDomainErrorOnly .acoshf) x y
        = some (spec_acosh_domain x)) ∧
    (wrappedEval (performCallDomainErrorOnly .acoshl) x y
        = some (spec_acosh_domain x)) ∧
    (wrappedEval (performCallDomainErrorOnly .sqrt) x y
        = some (spec_sqrt_domain x)) ∧
    (wrappedEval (performCallDomainErrorOnly .sqrtf) x y
        = some (spec_sqrt_domain x)) ∧
    (wrappedEval (performCallDomainErrorOnly .sqrtl) x y
        = some (spec_sqrt_domain x)) ∧
    (wrappedEval (performCallDomainErrorOnly .sqrt) .negZero y
        = some false) ∧
    (wrappedEval (performCallDomainErrorOnly .sqrt)
        (.finite (-1 / 10 ^ 10)) y = some true) := by
  refine ⟨rfl, rfl, rfl, rfl, rfl, rfl, rfl, rfl, rfl, rfl, rfl, rfl,
    rfl, rfl, rfl, rfl, rfl, rfl, by simp [wrappedEval,
    performCallDomainErrorOnly, wrap, shrinkWrapCI, createCond, evalCond,
    fcmp, fpLt, FPVal.isNaN], by norm_num [wrappedEval,
    performCallDomainErrorOnly, wrap, shrinkWrapCI, createCond, evalCond,
    fcmp, fpLt, FPVal.isNaN]⟩

/-! ### C4: the range-error predicates match the spec table -/

/-- **C4.** Every range-error candidate gets the two-sided predicate
`arg < LowerBound OR arg > UpperBound` with the table's per-function,
per-precision bounds (exp: [−745, 709] / [−103, 88] / [−11399, 11356];
exp2, exp10, cosh/sinh analogous), and the expm1 family gets the single
comparison `arg > 709 / 88 / 11356`. -/
theorem range_error_predicates_match_spec_table (x y : FPVal) :
    (wrappedEval (performCallRangeErrorOnly .exp) x y
        = some (spec_twoRange (-745) 709 x)) ∧
    (wrappedEval (performCallRangeErrorOnly .expf) x y
        = some (spec_twoRange (-103) 88 x)) ∧
    (wrappedEval (performCallRangeErrorOnly .expl) x y
        = some (spec_twoRange (-11399) 11356 x)) ∧
    (wrappedEval (performCallRangeErrorOnly .exp2) x y
        = some (spec_twoRange (-1074) 1023 x)) ∧
    (wrappedEval (performCallRangeErrorOnly .exp2f) x y
        = some (spec_twoRange (-149) 127 x)) ∧
    (wrappedEval (performCallRangeErrorOnly .exp2l) x y
        = some (spec_twoRange (-16445) 11383 x)) ∧
    (wrappedEval (performCallRangeErrorOnly .exp10) x y
        = some (spec_twoRange (-323) 308 x)) ∧
    (wrappedEval (performCallRangeErrorOnly .exp10f) x y
        = some (spec_twoRange (-45) 38 x)) ∧
    (wrappedEval (performCallRangeErrorOnly .exp10l) x y
        = some (spec_twoRange (-4950) 4932 x)) ∧
    (wrappedEval (performCallRangeErrorOnly .cosh) x y
        = some (spec_twoRange (-710) 710 x)) ∧
    (wrappedEval (performCallRangeErrorOnly .coshf) x y
        = some (spec_twoRange (-89) 89 x)) ∧
    (wrappedEval (performCallRangeErrorOnly .coshl) x y
        = some (spec_twoRange (-11357) 11357 x)) ∧
    (wrappedEval (performCallRangeErrorOnly .sinh) x y
        = some (spec_twoRange (-710) 710 x)) ∧
    (wrappedEval (performCallRangeErrorOnly .sinhf) x y
        = some (spec_twoRange (-89) 89 x)) ∧
    (wrappedEval (performCallRangeErrorOnly .sinhl) x y
        = some (spec_twoRange (-11357) 11357 x)) ∧
    (wrappedEval (performCallRangeErrorOnly .expm1) x y
        = some (spec_oneRange 709 x)) ∧
    (wrappedEval (performCallRangeErrorOnly .expm1f) x y
        = some (spec_oneRange 88 x)) ∧
    (wrappedEval (performCallRangeErrorOnly .expm1l) x y
        = some (spec_oneRange 11356 x)) := by
  refine ⟨?_, ?_, ?_, ?_, ?_, ?_, ?_, ?_, ?_, ?_, ?_, ?_, ?_, ?_, ?_,
    rfl, rfl, rfl⟩ <;>
    simp [wrappedEval, performCallRangeErrorOnly, generateTwoRangeCond,
      wrapOpt, wrap, shrinkWrapCI, createOrCond, evalCond, spec_twoRange,
      Bool.or_comm]

/-! ### C2: pow with a compile-time constant base -/

/-- **C2.** For a double-precision pow call with constant base `B`,
synthesis declines (the call is left untouched) unless `1 ≤ B ≤ 255`;
when it does not decline the predicate is exactly `exponent > 127`.
Constant base 2.0 yields `exponent > 127`; constant base 0.5 declines. -/
theorem pow_constant_base (B : ℚ) (x y : FPVal) :
    (¬(1 ≤ B ∧ B ≤ 255) →
      perform cfgDefault .pow (.constFP B) = .notChanged) ∧
    (1 ≤ B ∧ B ≤ 255 →
      wrappedEval (perform cfgDefault .pow (.constFP B)) x y
        = some (fcmp .ogt y (.finite 127))) ∧
    (wrappedEval (perform cfgDefault .pow (.constFP 2)) x y
        = some (fcmp .ogt y (.finite 127))) ∧
    perform cfgDefault .pow (.constFP (1 / 2)) = .notChanged := by
  refine ⟨fun h => ?_, fun h => ?_, ?_, ?_⟩
  · have hB : B < 1 ∨ 255 < B := by
      rcases not_and_or.mp h with h1 | h1
      · exact Or.inl (lt_of_not_le h1)
      · exact Or.inr (lt_of_not_le h1)
    simp [perform, cfgDefault, performCallDomainErrorOnly,
      performCallRangeErrorOnly, performCallErrors, generateCondForPow,
      if_pos hB]
  · have hB : ¬(B < 1 ∨ 255 < B) := by
      push_neg
      exact ⟨h.1, h.2⟩
    simp [perform, cfgDefault, performCallDomainErrorOnly,
      performCallRangeErrorOnly, performCallErrors, generateCondForPow,
      if_neg hB, wrap, shrinkWrapCI, wrappedEval, evalCond]
  · norm_num [perform, cfgDefault, performCallDomainErrorOnly,
      performCallRangeErrorOnly, performCallErrors, generateCondForPow,
      wrap, shrinkWrapCI, wrappedEval, evalCond]
  · norm_num [perform, cfgDefault, performCallDomainErrorOnly,
      performCallRangeErrorOnly, performCallErrors, generateCondForPow]

/-- Witness for C2 at concrete inputs: base 300 declines, base 100 is
accepted with predicate `exponent > 127`. -/
theorem pow_constant_base_witness :
    perform cfgDefault .pow (.constFP 300) = .notChanged ∧
    wrappedEval (perform cfgDefault .pow (.constFP 100)) .nan
        (.finite 200)
      = some (fcmp .ogt (.finite 200) (.finite 127)) :=
  ⟨(pow_constant_base 300 .nan .nan).1 (by norm_num),
   (pow_constant_base 100 .nan (.finite 200)).2.1 (by norm_num)⟩

/-! ### C3: pow declines and the integer-provenance case -/

/-- **C3.** powf and powl always decline (no predicate, no transform, no
fatal check), as do a pow base of unknown provenance and an int-to-float
widening from a width other than 8/16/32; a base widened from an
8/16/32-bit integer yields `(base ≤ 0) OR (exponent > 128/64/32)`. -/
theorem pow_unsupported_and_int_base (cfg : Config) (bs : BaseKind)
    (bw : ℕ) (x y : FPVal) :
    perform cfg .powf bs = .notChanged ∧
    perform cfg .powl bs = .notChanged ∧
    perform cfgDefault .pow .otherInst = .notChanged ∧
    perform cfgDefault .pow .nonInst = .notChanged ∧
    (bw ≠ 8 → bw ≠ 16 → bw ≠ 32 →
      perform cfgDefault .pow (.intToFP bw) = .notChanged) ∧
    (wrappedEval (perform cfgDefault .pow (.intToFP 8)) x y
      = some (fcmp .ole x (.finite 0) || fcmp .ogt y (.finite 128))) ∧
    (wrappedEval (perform cfgDefault .pow (.intToFP 16)) x y
      = some (fcmp .ole x (.finite 0) || fcmp .ogt y (.finite 64))) ∧
    (wrappedEval (perform cfgDefault .pow (.intToFP 32)) x y
      = some (fcmp .ole x (.finite 0) || fcmp .ogt y (.finite 32))) := by
  refine ⟨?_, ?_, rfl, rfl, fun h8 h16 h32 => ?_, rfl, rfl, rfl⟩
  · rcases cfg with ⟨d, r, p⟩
    cases d <;> cases r <;> cases p <;> rfl
  · rcases cfg with ⟨d, r, p⟩
    cases d <;> cases r <;> cases p <;> rfl
  · simp [perform, cfgDefault, performCallDomainErrorOnly,
      performCallRangeErrorOnly, performCallErrors, generateCondForPow,
      h8, h16, h32]

/-- Witness for C3: a 7-bit integer source width declines. -/
theorem pow_unsupported_and_int_base_witness :
    perform cfgDefault .pow (.intToFP 7) = .notChanged :=
  (pow_unsupported_and_int_base cfgDefault .nonInst 7 .nan .nan).2.2.2.2.1
    (by decide) (by decide) (by decide)

/-! ### C5: the combined (domain+pole) predicates match the spec table -/

/-- **C5.** With the domain-error and pole-error toggles both enabled,
the combined category synthesizes: for atanh (and variants)
`arg ≤ −1 OR arg ≥ 1`; for the log/log2/log10/logb families `arg ≤ 0`;
for the log1p family `arg ≤ −1`. -/
theorem combined_predicates_match_spec_table (cfg : Config)
    (bs : BaseKind) (x y : FPVal) (hdom : cfg.doDomainError = true)
    (hpole : cfg.doPoleError = true) :
    (wrappedEval (performCallErrors cfg .atanh bs) x y
        = some (spec_atanh_combined x)) ∧
    (wrappedEval (performCallErrors cfg .atanhf bs) x y
        = some (spec_atanh_combined x)) ∧
    (wrappedEval (performCallErrors cfg .atanhl bs) x y
        = some (spec_atanh_combined x)) ∧
    (wrappedEval (performCallErrors cfg .log bs) x y
        = some (spec_log_combined x)) ∧
    (wrappedEval (performCallErrors cfg .logf bs) x y
        = some (spec_log_combined x)) ∧
    (wrappedEval (performCallErrors cfg .logl bs) x y
        = some (spec_log_combined x)) ∧
    (wrappedEval (performCallErrors cfg .log10 bs) x y
        = some (spec_log_combined x)) ∧
    (wrappedEval (performCallErrors cfg .log10f bs) x y
        = some (spec_log_combined x)) ∧
    (wrappedEval (performCallErrors cfg .log10l bs) x y
        = some (spec_log_combined x)) ∧
    (wrappedEval (performCallErrors cfg .log2 bs) x y
        = some (spec_log_combined x)) ∧
    (wrappedEval (performCallErrors cfg .log2f bs) x y
        = some (spec_log_combined x)) ∧
    (wrappedEval (performCallErrors cfg .log2l bs) x y
        = some (spec_log_combined x)) ∧
    (wrappedEval (performCallErrors cfg .logb bs) x y
        = some (spec_log_combined x)) ∧
    (wrappedEval (performCallErrors cfg .logbf bs) x y
        = some (spec_log_combined x)) ∧
    (wrappedEval (performCallErrors cfg .logbl bs) x y
        = some (spec_log_combined x)) ∧
    (wrappedEval (performCallErrors cfg .log1p bs) x y
        = some (spec_log1p_combined x)) ∧
    (wrappedEval (performCallErrors cfg .log1pf bs) x y
        = some (spec_log1p_combined x)) ∧
    (wrappedEval (performCallErrors cfg .log1pl bs) x y
        = some (spec_log1p_combined x)) := by
  refine ⟨?_, ?_, ?_, ?_, ?_, ?_, ?_, ?_, ?_, ?_, ?_, ?_, ?_, ?_, ?_,
    ?_, ?_, ?_⟩ <;>
    simp [performCallErrors, hdom, hpole, wrap, shrinkWrapCI,
      wrappedEval, evalCond, createOrCond, createCond,
      spec_atanh_combined, spec_log_combined, spec_log1p_combined]

/-- Witness for C5 with the default configuration at a concrete input. -/
theorem combined_predicates_match_spec_table_witness :
    wrappedEval (performCallErrors cfgDefault .atanh .nonInst)
        (.finite 2) .nan
      = some (spec_atanh_combined (.finite 2)) :=
  (combined_predicates_match_spec_table cfgDefault .nonInst
    (.finite 2) .nan rfl rfl).1

/-! ### C6: the candidate filter -/

/-- **C6.** A call is appended to the work list iff it is not marked
no-builtin, its result has zero uses, its callee resolves to a recognized
library function available in the target configuration, and its first
argument has one of the three supported floating-point types; in
particular a call with a used result is never added. -/
theorem candidate_filter_iff (tliHas : Func → Bool) (c : CallSite) :
    (checkCandidate tliHas c = true ↔
      (c.isNoBuiltin = false ∧ c.useEmpty = true ∧
        ∃ f, c.callee = some (some f) ∧ tliHas f = true ∧
          (c.argType = .flt ∨ c.argType = .dbl ∨ c.argType = .fp80))) ∧
    (c.useEmpty = false → checkCandidate tliHas c = false) := by
  rcases c with ⟨nb, ue, callee, ty, bs⟩
  constructor
  · cases nb <;> cases ue <;>
      rcases callee with _ | (_ | f) <;>
        simp [checkCandidate] <;>
          cases hf : tliHas f <;> cases ty <;> simp [hf]
  · intro hue
    subst hue
    cases nb <;> simp [checkCandidate]

/-- Witness for C6: a concrete unused-result sqrt call is admitted, and
the same call with a used result is not. -/
theorem candidate_filter_iff_witness :
    checkCandidate (fun _ => true)
        ⟨false, true, some (some .sqrt), .dbl, .nonInst⟩ = true ∧
    checkCandidate (fun _ => true)
        ⟨false, false, some (some .sqrt), .dbl, .nonInst⟩ = false :=
  ⟨(candidate_filter_iff (fun _ => true)
      ⟨false, true, some (some .sqrt), .dbl, .nonInst⟩).1.mpr
      ⟨rfl, rfl, .sqrt, rfl, rfl, Or.inr (Or.inl rfl)⟩,
   (candidate_filter_iff (fun _ => true)
      ⟨false, false, some (some .sqrt), .dbl, .nonInst⟩).2 rfl⟩

/-! ### C7: dispatch priority and toggle removal -/

/-- The functions belonging to a domain-only category. -/
def domainOnlyFamily : List Func :=
  [.acos, .acosf, .acosl, .asin, .asinf, .asinl,
   .cos, .cosf, .cosl, .sin, .sinf, .sinl,
   .acosh, .acoshf, .acoshl, .sqrt, .sqrtf, .sqrtl]

/-- The functions belonging to a range-only category. -/
def rangeOnlyFamily : List Func :=
  [.cosh, .coshf, .coshl, .exp, .expf, .expl,
   .exp10, .exp10f, .exp10l, .exp2, .exp2f, .exp2l,
   .sinh, .sinhf, .sinhl, .expm1, .expm1f, .expm1l]

/-- The combined-category functions requiring domain+pole. -/
def domPoleFamily : List Func :=
  [.atanh, .atanhf, .atanhl,
   .log, .logf, .logl, .log10, .log10f, .log10l,
   .log2, .log2f, .log2l, .logb, .logbf, .logbl,
   .log1p, .log1pf, .log1pl]

/-- **C7.** Dispatch per candidate runs domain-only, then range-only,
then combined, the first category that builds a predicate terminating
dispatch; a disabled toggle removes its category entirely (a pure
domain-only function with the domain toggle off, or a pure range-only
function with the range toggle off, is untouched), and a combined
category declines when any of its required toggles is off (domain+pole
for the atanh/log/log1p families, all three for pow). -/
theorem dispatch_priority_and_toggles (cfg : Config) (f : Func)
    (bs : BaseKind) :
    (∀ w, cfg.doDomainError = true →
        performCallDomainErrorOnly f = .wrapped w →
        perform cfg f bs = .wrapped w) ∧
    (∀ w, (cfg.doDomainError = false ∨
           performCallDomainErrorOnly f = .notChanged) →
        cfg.doRangeError = true →
        performCallRangeErrorOnly f = .wrapped w →
        perform cfg f bs = .wrapped w) ∧
    ((cfg.doDomainError = false ∨
      performCallDomainErrorOnly f = .notChanged) →
     (cfg.doRangeError = false ∨
      performCallRangeErrorOnly f = .notChanged) →
        perform cfg f bs = performCallErrors cfg f bs) ∧
    (cfg.doDomainError = false → f ∈ domainOnlyFamily →
        perform cfg f bs = .notChanged) ∧
    (cfg.doRangeError = false → f ∈ rangeOnlyFamily →
        perform cfg f bs = .notChanged) ∧
    ((cfg.doDomainError = false ∨ cfg.doPoleError = false) →
      f ∈ domPoleFamily → performCallErrors cfg f bs = .notChanged) ∧
    ((cfg.doDomainError = false ∨ cfg.doPoleError = false ∨
      cfg.doRangeError = false) →
      f ∈ ([.pow, .powf, .powl] : List Func) →
        performCallErrors cfg f bs = .notChanged) := by
  refine ⟨?_, ?_, ?_, ?_, ?_, ?_, ?_⟩
  · intro w hd hw
    simp [perform, hd, hw]
  · intro w hd hr hw
    rcases hd with hd | hd <;> simp [perform, hd, hr, hw]
  · intro hd hr
    rcases hd with hd | hd <;> rcases hr with hr | hr <;>
      simp [perform, hd, hr]
  · intro hd hf
    fin_cases hf <;>
      simp [perform, hd, performCallRangeErrorOnly, performCallErrors]
  · intro hr hf
    have hd : ∀ g, g ∈ rangeOnlyFamily →
        performCallDomainErrorOnly g = .notChanged := by
      intro g hg
      fin_cases hg <;> rfl
    fin_cases hf <;>
      simp [perform, hr, hd, performCallDomainErrorOnly,
        performCallErrors]
  · intro hdp hf
    fin_cases hf <;> rcases hdp with h | h <;>
      simp [performCallErrors, h]
  · intro hdpr hf
    fin_cases hf <;> rcases hdpr with h | h | h <;>
      simp [performCallErrors, h]

/-- Witness for C7: domain-only wins for sqrt under the default
configuration; with all toggles off an exp call is untouched. -/
theorem dispatch_priority_and_toggles_witness :
    perform cfgDefault .sqrt .nonInst
      = .wrapped (shrinkWrapCI (createCond .olt (.finite 0))) ∧
    perform ⟨false, false, false⟩ .exp .nonInst = .notChanged :=
  ⟨(dispatch_priority_and_toggles cfgDefault .sqrt .nonInst).1
      (shrinkWrapCI (createCond .olt (.finite 0))) rfl rfl,
   (dispatch_priority_and_toggles ⟨false, false, false⟩ .exp
      .nonInst).2.2.2.2.1 rfl (by decide)⟩

/-! ### C8: branch weights -/

/-- **C8.** Every rewrite the transform applies attaches branch weights
in the exact ratio 1:2000, weight 1 on the edge taken when the predicate
is true (the guarded call path) and 2000 on the skip path. -/
theorem guard_branch_weights (cfg : Config) (f : Func) (bs : BaseKind)
    (w : WrapInfo) (h : perform cfg f bs = .wrapped w) :
    w.trueWeight = 1 ∧ w.falseWeight = 2000 := by
  rcases cfg with ⟨d, r, p⟩
  rcases hg : generateCondForPow f bs with _ | c <;>
    cases f <;> cases d <;> cases r <;> cases p <;>
      simp_all [perform, performCallDomainErrorOnly,
        performCallRangeErrorOnly, performCallErrors,
        generateOneRangeCond, generateTwoRangeCond, wrapOpt, wrap,
        shrinkWrapCI] <;>
        simp [← h]

/-- Witness for C8: the wrap applied to a default-configuration sqrt
call carries weights 1 and 2000. -/
theorem guard_branch_weights_witness :
    (shrinkWrapCI (createCond .olt (.finite 0))).trueWeight = 1 ∧
    (shrinkWrapCI (createCond .olt (.finite 0))).falseWeight = 2000 :=
  guard_branch_weights cfgDefault .sqrt .nonInst
    (shrinkWrapCI (createCond .olt (.finite 0))) rfl

/-! ### Helper lemmas for the orchestration claims -/

/-- `perform` never aborts on an internal-consistency check: for every
function and base provenance the result is `notChanged` or `wrapped`. -/
theorem perform_ne_fatal (cfg : Config) (f : Func) (bs : BaseKind) :
    perform cfg f bs ≠ .fatal := by
  rcases cfg with ⟨d, r, p⟩
  rcases hg : generateCondForPow f bs with _ | c <;>
    cases f <;> cases d <;> cases r <;> cases p <;>
      simp_all [perform, performCallDomainErrorOnly,
        performCallRangeErrorOnly, performCallErrors,
        generateOneRangeCond, generateTwoRangeCond, wrapOpt, wrap]

/-- An admitted candidate records a non-null, recognized, available
callee. -/
theorem checkCandidate_callee {tli : Func → Bool} {c : CallSite}
    (h : checkCandidate tli c = true) :
    ∃ f, c.callee = some (some f) ∧ tli f = true := by
  rcases c with ⟨nb, ue, callee, ty, bs⟩
  cases nb <;> cases ue <;> rcases callee with _ | (_ | f) <;>
    simp [checkCandidate] at h <;>
      cases hf : tli f <;> simp [hf] at h <;> exact ⟨f, rfl, hf⟩

/-- The `perform()` loop completes when no entry aborts. -/
theorem performLoop_total (cfg : Config) (wl : List CallSite)
    (hok : ∀ c ∈ wl, performCall cfg c ≠ .fatal) :
    ∃ ch ws, performLoop cfg wl = some (ch, ws) := by
  induction wl with
  | nil => exact ⟨false, [], rfl⟩
  | cons c rest ih =>
      obtain ⟨ch, ws, hrest⟩ :=
        ih (fun c' hc' => hok c' (List.mem_cons_of_mem _ hc'))
      rcases hp : performCall cfg c with _ | w | _
      · exact ⟨ch, ws, by simp [performLoop, hp, hrest]⟩
      · exact ⟨true, w :: ws, by simp [performLoop, hp, hrest]⟩
      · exact absurd hp (hok c (List.mem_cons_self c rest))

/-- The loop's changed flag is true iff some work-list entry wrapped. -/
theorem performLoop_changed (cfg : Config) (wl : List CallSite)
    (ch : Bool) (ws : List WrapInfo)
    (h : performLoop cfg wl = some (ch, ws)) :
    ch = true ↔ ∃ c ∈ wl, ∃ w, performCall cfg c = .wrapped w := by
  induction wl generalizing ch ws with
  | nil =>
      simp [performLoop] at h
      simp [h.1]
  | cons c rest ih =>
      rcases hp : performCall cfg c with _ | w | _
      · simp only [performLoop, hp] at h
        rw [ih ch ws h]
        constructor
        · rintro ⟨c', hc', hw⟩
          exact ⟨c', List.mem_cons_of_mem _ hc', hw⟩
        · rintro ⟨c', hc', w', hw⟩
          rcases List.mem_cons.mp hc' with rfl | hc'
          · rw [hp] at hw
            exact absurd hw (by simp)
          · exact ⟨c', hc', w', hw⟩
      · rw [performLoop, hp, Option.map_eq_some'] at h
        obtain ⟨⟨ch', ws'⟩, hrest, heq⟩ := h
        injection heq with hch hws
        subst hch
        exact ⟨fun _ => ⟨c, List.mem_cons_self c rest, w, hp⟩,
          fun _ => rfl⟩
      · rw [performLoop, hp] at h
        exact absurd h (by simp)

/-- The loop is a no-op when every entry declines. -/
theorem performLoop_all_decline (cfg : Config) (wl : List CallSite)
    (hall : ∀ c ∈ wl, performCall cfg c = .notChanged) :
    performLoop cfg wl = some (false, []) := by
  induction wl with
  | nil => rfl
  | cons c rest ih =>
      have hc := hall c (List.mem_cons_self c rest)
      simp [performLoop, hc,
        ih (fun c' hc' => hall c' (List.mem_cons_of_mem _ hc'))]

/-! ### C9: orchestration -/

/-- **C9.** A function marked optimize-for-size is returned `false` with
no rewrite applied; otherwise the pass reports `true` iff at least one
admitted candidate's synthesis-plus-rewrite succeeded, and when every
candidate declines, nothing is rewritten and `false` is reported. -/
theorem orchestration_changed_flag (cfg : Config) (tli : Func → Bool)
    (calls : List CallSite) :
    runImpl cfg tli true calls = some (false, []) ∧
    (∀ ch ws, runImpl cfg tli false calls = some (ch, ws) →
      (ch = true ↔ ∃ c ∈ calls, checkCandidate tli c = true ∧
        ∃ w, performCall cfg c = .wrapped w)) ∧
    ((∀ c ∈ calls, performCall cfg c = .notChanged) →
      runImpl cfg tli false calls = some (false, [])) := by
  refine ⟨rfl, fun ch ws h => ?_, fun hall => ?_⟩
  · simp only [runImpl, if_neg (Bool.false_ne_true)] at h
    rw [performLoop_changed cfg _ ch ws h]
    constructor
    · rintro ⟨c, hc, hw⟩
      obtain ⟨hc1, hc2⟩ := List.mem_filter.mp hc
      exact ⟨c, hc1, hc2, hw⟩
    · rintro ⟨c, hc, hchk, hw⟩
      exact ⟨c, List.mem_filter.mpr ⟨hc, hchk⟩, hw⟩
  · simp only [runImpl, if_neg (Bool.false_ne_true)]
    exact performLoop_all_decline cfg _
      (fun c hc => hall c (List.mem_filter.mp hc).1)

/-- A concrete admitted sqrt call site used by the witnesses. -/
def sqrtCall : CallSite := ⟨false, true, some (some .sqrt), .dbl, .nonInst⟩

/-- Witness for C9: on a single sqrt candidate the pass reports changed,
a fact whose right-hand side is realized by the applied sqrt wrap. -/
theorem orchestration_changed_flag_witness :
    true = true ↔ ∃ c ∈ [sqrtCall],
      checkCandidate (fun _ => true) c = true ∧
      ∃ w, performCall cfgDefault c = .wrapped w :=
  (orchestration_changed_flag cfgDefault (fun _ => true) [sqrtCall]).2.1
    true [shrinkWrapCI (createCond .olt (.finite 0))] rfl

/-! ### C10: admitted candidates never trip an internal check -/

/-- **C10.** Every call admitted by the candidate check processes
cleanly: its callee is non-null and resolves to a recognized, available
library identity, and `perform` on it never aborts — the range-condition
generators' unreachable default branches are never taken and the block
rewrite is never invoked with a null predicate (any such event is
`fatal` in the model). -/
theorem admitted_candidates_never_fatal (cfg : Config)
    (tli : Func → Bool) (c : CallSite)
    (h : checkCandidate tli c = true) :
    (∃ f, c.callee = some (some f) ∧ tli f = true) ∧
    performCall cfg c ≠ .fatal ∧
    (∀ g : Func, performCallRangeErrorOnly g ≠ .fatal) := by
  obtain ⟨f, hcallee, hf⟩ := checkCandidate_callee h
  refine ⟨⟨f, hcallee, hf⟩, ?_, ?_⟩
  · rw [performCall, hcallee]
    exact perform_ne_fatal cfg f c.base
  · intro g
    cases g <;>
      simp [performCallRangeErrorOnly, generateOneRangeCond,
        generateTwoRangeCond, wrapOpt, wrap]

/-- Witness for C10 at a concrete admitted call. -/
theorem admitted_candidates_never_fatal_witness :
    performCall cfgDefault sqrtCall ≠ .fatal :=
  (admitted_candidates_never_fatal cfgDefault (fun _ => true) sqrtCall
    rfl).2.1

end LibCallsShrinkWrap
